import Mathlib

/-!
Verification of the MarketLink provider listing engine and the provider
visibility / moderation state machine, as implemented in the Fastify
backend (`src/routes/providers.ts`, `src/routes/admin.ts`) over the Prisma
`Provider` / `AdminAction` schema.

The embedding is shallow: the relational store is a list of records,
Prisma query clauses become boolean predicates, `ORDER BY` becomes a
deterministic comparator sort, and each HTTP handler becomes a pure
function from (store, caller, params) to (store, result).  JavaScript
string primitives (`trim`, `toLowerCase`, `split`, `parseFloat`,
`Number`) are modelled by structurally recursive functions on character
lists so that every definition evaluates inside the kernel.
-/

namespace Marketlink

/-! ### JavaScript string primitives -/

/-- Whitespace characters removed by `String.prototype.trim`. -/
def isWs (c : Char) : Bool := c == ' ' || c == '\t' || c == '\n' || c == '\r'

def jsTrimList (l : List Char) : List Char :=
  ((l.dropWhile isWs).reverse.dropWhile isWs).reverse

/-- JavaScript `s.trim()`. -/
def jsTrim (s : String) : String := ⟨jsTrimList s.data⟩

/-- JavaScript `s.toLowerCase()` (ASCII, which is all the routes compare). -/
def jsToLower (s : String) : String := ⟨s.data.map Char.toLower⟩

/-- JavaScript `s.split(sep)` for a one-character separator. -/
def splitCharList (sep : Char) : List Char → List (List Char)
  | [] => [[]]
  | c :: rest =>
    match splitCharList sep rest, c == sep with
    | r, true => [] :: r
    | [], false => [[c]]
    | h :: t, false => (c :: h) :: t

def jsSplit (sep : Char) (s : String) : List String :=
  (splitCharList sep s.data).map (fun l => ⟨l⟩)

def isDigitChar (c : Char) : Bool := '0' ≤ c && c ≤ '9'

def isDigitsList (l : List Char) : Bool := !l.isEmpty && l.all isDigitChar

/-- Matches the Fastify schema pattern `^[0-9]+$` used for `page`/`limit`. -/
def isDigitStr (s : String) : Bool := isDigitsList s.data

def digitsVal (l : List Char) : Nat :=
  l.foldl (fun a c => a * 10 + (c.toNat - '0'.toNat)) 0

/-- JavaScript `Number(s)` restricted to the strings the handlers can see:
digit strings evaluate to their value, the empty string to `0`, anything
else to `NaN` (`none`). -/
def jsNumberNat (s : String) : Option Nat :=
  if s.data.isEmpty then some 0
  else if isDigitsList s.data then some (digitsVal s.data) else none

/-- Exact rational, modelling the numeric `rating` column and parsed
`minRating` values (comparisons on decimal literals are exact). -/
structure MRat where
  num : Int
  den : Nat
deriving DecidableEq, Repr

def MRat.leb (a b : MRat) : Bool :=
  decide (a.num * (b.den : Int) ≤ b.num * (a.den : Int))

def MRat.cmp (a b : MRat) : Ordering :=
  if a.num * (b.den : Int) < b.num * (a.den : Int) then .lt
  else if a.num * (b.den : Int) == b.num * (a.den : Int) then .eq
  else .gt

/-- JavaScript `parseFloat(s)` on the inputs reachable through the query
schema: a leading digit run, optionally followed by `.` and a fraction
digit run; `none` models `NaN`. -/
def jsParseFloat (s : String) : Option MRat :=
  let ds := s.data.takeWhile isDigitChar
  if ds.isEmpty then none
  else
    match s.data.drop ds.length with
    | '.' :: rs =>
      let fs := rs.takeWhile isDigitChar
      some ⟨digitsVal ds * 10 ^ fs.length + digitsVal fs, 10 ^ fs.length⟩
    | _ => some ⟨digitsVal ds, 1⟩

/-- Prisma `startsWith` + `mode: insensitive`. -/
def startsWithCI (hay pre : String) : Bool :=
  List.isPrefixOf (jsToLower pre).data (jsToLower hay).data

def containsSubList (hay needle : List Char) : Bool :=
  match hay with
  | [] => needle.isEmpty
  | _ :: t => List.isPrefixOf needle hay || containsSubList t needle

/-- Prisma `contains` + `mode: insensitive`. -/
def containsCI (hay needle : String) : Bool :=
  containsSubList (jsToLower hay).data (jsToLower needle).data

/-! ### Data model (Prisma schema) -/

inductive ProviderStatus
  | pending
  | active
  | disabled
deriving DecidableEq, Repr

/-- A `Provider` row.  `rating` defaults to 0, `verified` to false;
`status` defaults to `active` per migration `20251015204416_p5_admin_schema`
(`ADD COLUMN "status" "ProviderStatus" NOT NULL DEFAULT 'active'`). -/
structure Provider where
  id : Nat
  slug : String
  businessName : String
  email : String
  tagline : Option String
  city : String
  state : String
  zip : Option String
  logo : Option String
  services : List String
  rating : MRat
  verified : Bool
  status : ProviderStatus
  disabledReason : Option String
  userId : Option Nat
  createdAt : Nat
  updatedAt : Nat
deriving DecidableEq, Repr

/-- The `Provider.status` column default from the admin-schema migration. -/
def providerStatusDefault : ProviderStatus := .active

inductive UserRole
  | provider
  | admin
deriving DecidableEq, Repr

structure User where
  id : Nat
  email : String
  role : UserRole
deriving DecidableEq, Repr

inductive AdminActionType
  | APPROVE
  | VERIFY_ON
  | VERIFY_OFF
  | DISABLE
  | ENABLE
  | EDIT
  | REVIEW
deriving DecidableEq, Repr

inductive ActionMeta
  | fromTo (src dst : ProviderStatus)
  | reason (r : Option String)
  | noMeta
deriving DecidableEq, Repr

structure AdminAction where
  adminUserId : Option Nat
  providerId : Nat
  type : AdminActionType
  meta : ActionMeta
deriving DecidableEq, Repr

/-- The persistent store slices the claims touch. -/
structure Store where
  providers : List Provider
  actions : List AdminAction
deriving DecidableEq, Repr

inductive ApiErr
  | validation
  | notAuthenticated
  | forbidden
  | notFound
  | conflict
  | internal
deriving DecidableEq, Repr

deriving instance DecidableEq for Except

/-! ### Listing query engine (`GET /providers`) -/

inductive SortKey
  | newest
  | name
  | rating
  | verified
deriving DecidableEq, Repr

inductive OrderDir
  | asc
  | desc
deriving DecidableEq, Repr

inductive MatchMode
  | any
  | all
deriving DecidableEq, Repr

def asSortKey (v : Option String) : SortKey :=
  match v with
  | some "name" => .name
  | some "rating" => .rating
  | some "verified" => .verified
  | _ => .newest

def asOrder (v : Option String) (sort : SortKey) : OrderDir :=
  match v with
  | some "asc" => .asc
  | some "desc" => .desc
  | _ => if sort == SortKey.name then .asc else .desc

def asMatch (v : Option String) : MatchMode :=
  if v == some "all" then .all else .any

/-- The raw query string of `GET /providers` (all parameters optional,
string-typed). -/
structure ListQuery where
  name : Option String := none
  city : Option String := none
  service : Option String := none
  minRating : Option String := none
  verified : Option String := none
  «match» : Option String := none
  sort : Option String := none
  order : Option String := none
  page : Option String := none
  limit : Option String := none
deriving DecidableEq, Repr

/-- Matches the schema pattern for `minRating`: `^[0-9]+(\.[0-9]+)?$`. -/
def minRatingPat (s : String) : Bool :=
  match splitCharList '.' s.data with
  | [a] => isDigitsList a
  | [a, b] => isDigitsList a && isDigitsList b
  | _ => false

/-- The Fastify `listQuerySchema` querystring validation: pattern checks on
`minRating`, `page`, `limit` and enum checks on `match`, `sort`, `order`;
a request failing it is rejected with a 400 before the handler runs. -/
def validateListQuery (q : ListQuery) : Bool :=
  q.minRating.all minRatingPat &&
  q.page.all isDigitStr &&
  q.limit.all isDigitStr &&
  q.«match».all (fun v => v == "any" || v == "all") &&
  q.sort.all (fun v => v == "newest" || v == "name" || v == "rating" || v == "verified") &&
  q.order.all (fun v => v == "asc" || v == "desc")

def limitNum (raw : Option String) : Nat :=
  match raw with
  | none => 20
  | some s =>
    match jsNumberNat s with
    | none => 20
    | some n => max 1 (min 50 n)

def pageNum (raw : Option String) : Nat :=
  match raw with
  | none => 1
  | some s =>
    match jsNumberNat s with
    | none => 1
    | some n => max 1 n

def serviceTokens (s : String) : List String :=
  ((jsSplit ',' s).map (fun x => jsToLower (jsTrim x))).filter (fun x => x != "")

def cityFilter (city : Option String) : List (Provider → Bool) :=
  match city with
  | none => []
  | some c => if jsTrim c == "" then [] else [fun p => startsWithCI p.city (jsTrim c)]

def nameFilter (name : Option String) : List (Provider → Bool) :=
  match name with
  | none => []
  | some n => if jsTrim n == "" then [] else [fun p => containsCI p.businessName (jsTrim n)]

def serviceFilter (service : Option String) (matchRaw : Option String) : List (Provider → Bool) :=
  match service with
  | none => []
  | some s =>
    if jsTrim s == "" then []
    else
      match serviceTokens s, asMatch matchRaw with
      | [t], _ => [fun p => p.services.contains t]
      | [], _ => []
      | ts, .all => [fun p => ts.all (fun t => p.services.contains t)]
      | ts, .any => [fun p => ts.any (fun t => p.services.contains t)]

def minRatingFilter (minRating : Option String) : List (Provider → Bool) :=
  match minRating with
  | none => []
  | some s =>
    if s == "" then []
    else
      match jsParseFloat s with
      | none => []
      | some r => [fun p => MRat.leb r p.rating]

def verifiedFilter (verified : Option String) : List (Provider → Bool) :=
  match verified with
  | none => []
  | some v0 =>
    if v0 == "" then []
    else
      (if jsToLower v0 == "1" || jsToLower v0 == "true" then [fun p => p.verified] else []) ++
      (if jsToLower v0 == "0" || jsToLower v0 == "false" then [fun p => !p.verified] else [])

def andFilters (q : ListQuery) : List (Provider → Bool) :=
  cityFilter q.city ++ nameFilter q.name ++ serviceFilter q.service q.«match» ++
    minRatingFilter q.minRating ++ verifiedFilter q.verified

/-- The effective `where` clause: caller filters intersected with the
mandatory base filter `status == active`. -/
def wherePred (q : ListQuery) (p : Provider) : Bool :=
  (andFilters q).all (fun f => f p) && p.status == ProviderStatus.active

inductive SortField
  | createdAt
  | businessName
  | rating
  | verified
deriving DecidableEq, Repr

def primaryField : SortKey → SortField
  | .newest => .createdAt
  | .name => .businessName
  | .rating => .rating
  | .verified => .verified

/-- The `orderBy` array: the primary key, then the fixed tie-break pushes
guarded by `hasPrimary`. -/
def orderByChain (sk : SortKey) (ord : OrderDir) : List (SortField × OrderDir) :=
  let hasPrimary (f : SortField) : Bool := primaryField sk == f
  [(primaryField sk, ord)] ++
    (if hasPrimary .rating then [] else [(.rating, .desc)]) ++
    (if hasPrimary .verified then [] else [(.verified, .desc)]) ++
    (if hasPrimary .businessName then [] else [(.businessName, .asc)]) ++
    (if hasPrimary .createdAt then [] else [(.createdAt, .desc)])

def natCmp (a b : Nat) : Ordering :=
  if a < b then .lt else if a == b then .eq else .gt

def strCmp (a b : String) : Ordering :=
  if a < b then .lt else if a == b then .eq else .gt

def boolCmp (a b : Bool) : Ordering := natCmp a.toNat b.toNat

def cmpField : SortField → Provider → Provider → Ordering
  | .createdAt, a, b => natCmp a.createdAt b.createdAt
  | .businessName, a, b => strCmp a.businessName b.businessName
  | .rating, a, b => MRat.cmp a.rating b.rating
  | .verified, a, b => boolCmp a.verified b.verified

def applyDir : OrderDir → Ordering → Ordering
  | .asc, o => o
  | .desc, o => o.swap

def chainCmp : List (SortField × OrderDir) → Provider → Provider → Ordering
  | [], _, _ => .eq
  | (f, d) :: rest, a, b =>
    match applyDir d (cmpField f a b) with
    | .eq => chainCmp rest a b
    | o => o

def chainLe (ch : List (SortField × OrderDir)) (a b : Provider) : Bool :=
  chainCmp ch a b != Ordering.gt

/-- Deterministic comparator sort modelling the store's `ORDER BY`. -/
def insertLe {α : Type} (le : α → α → Bool) (x : α) : List α → List α
  | [] => [x]
  | y :: ys => if le x y then x :: y :: ys else y :: insertLe le x ys

def sortLe {α : Type} (le : α → α → Bool) : List α → List α
  | [] => []
  | x :: xs => insertLe le x (sortLe le xs)

def effectiveOrderBy (q : ListQuery) : List (SortField × OrderDir) :=
  orderByChain (asSortKey q.sort) (asOrder q.order (asSortKey q.sort))

def sortedWhere (q : ListQuery) (db : List Provider) : List Provider :=
  sortLe (chainLe (effectiveOrderBy q)) (db.filter (wherePred q))

inductive FieldVal
  | s (v : String)
  | os (v : Option String)
  | n (v : Nat)
  | onat (v : Option Nat)
  | r (v : MRat)
  | b (v : Bool)
  | ls (v : List String)
  | st (v : ProviderStatus)
deriving DecidableEq, Repr

/-- The `select` of the public listing rows. -/
def providerSummarySelect (p : Provider) : List (String × FieldVal) :=
  [("id", .n p.id), ("slug", .s p.slug), ("businessName", .s p.businessName),
   ("tagline", .os p.tagline), ("city", .s p.city), ("state", .s p.state),
   ("verified", .b p.verified), ("logo", .os p.logo), ("services", .ls p.services),
   ("rating", .r p.rating), ("createdAt", .n p.createdAt)]

structure ListMeta where
  total : Nat
  page : Nat
  limit : Nat
  totalPages : Nat
  sort : SortKey
  order : OrderDir
deriving DecidableEq, Repr

structure ListResult where
  meta : ListMeta
  rows : List Provider
  data : List (List (String × FieldVal))
deriving DecidableEq, Repr

/-- The `GET /providers` handler body: count + page window + meta. -/
def listProviders (q : ListQuery) (db : List Provider) : ListResult :=
  let take := limitNum q.limit
  let page := pageNum q.page
  let skip := (page - 1) * take
  let total := (db.filter (wherePred q)).length
  let rows := ((sortedWhere q db).drop skip).take take
  { meta :=
      { total := total, page := page, limit := take,
        totalPages := max 1 ((total + take - 1) / take),
        sort := asSortKey q.sort, order := asOrder q.order (asSortKey q.sort) },
    rows := rows,
    data := rows.map providerSummarySelect }

/-- The full `GET /providers` pipeline: schema validation, then handler. -/
def listEndpoint (q : ListQuery) (db : List Provider) : Except ApiErr ListResult :=
  if validateListQuery q then .ok (listProviders q db) else .error .validation

/-! ### Detail lookup (`GET /providers/:slug`) -/

/-- The `providerDetailSelect` projection (no `userId`). -/
def providerDetailSelect (p : Provider) : List (String × FieldVal) :=
  [("id", .n p.id), ("slug", .s p.slug), ("businessName", .s p.businessName),
   ("email", .s p.email), ("tagline", .os p.tagline), ("city", .s p.city),
   ("state", .s p.state), ("zip", .os p.zip), ("services", .ls p.services),
   ("rating", .r p.rating), ("verified", .b p.verified), ("logo", .os p.logo),
   ("status", .st p.status), ("disabledReason", .os p.disabledReason),
   ("createdAt", .n p.createdAt), ("updatedAt", .n p.updatedAt)]

/-- The owner branch selects `providerDetailSelect` plus `userId` (for the
ownership check) and then strips `userId` by rest-spread before replying. -/
def ownerVisible (p : Provider) : List (String × FieldVal) :=
  ((providerDetailSelect p ++ [("userId", FieldVal.onat p.userId)]).filter
    (fun kv => kv.1 != "userId"))

/-- The `GET /providers/:slug` handler: active row is public; a non-active
row is only served to its authenticated owner, every other caller gets the
same masked 404 as a missing slug. -/
def getProviderDetail (db : List Provider) (slug : String) (caller : Option User) :
    Except ApiErr (List (String × FieldVal)) :=
  match db.find? (fun p => p.slug == slug && p.status == ProviderStatus.active) with
  | some p => .ok (providerDetailSelect p)
  | none =>
    match db.find? (fun p => p.slug == slug) with
    | none => .error .notFound
    | some p =>
      match caller with
      | none => .error .notFound
      | some u =>
        if p.userId == some u.id then .ok (ownerVisible p) else .error .notFound

/-! ### Creation (`POST /providers`) -/

def isSlugChar (c : Char) : Bool := isDigitChar c || ('a' ≤ c && c ≤ 'z')

def collapseDashes : List Char → List Char
  | [] => []
  | c :: rest =>
    match collapseDashes rest with
    | [] => [c]
    | d :: t => if c == '-' && d == '-' then d :: t else c :: d :: t

/-- JavaScript `str.replace(/[^a-z0-9]+/g, '-')` on a lowercased string:
collapse each run of non-alphanumeric characters into one dash. -/
def dashRuns (l : List Char) : List Char :=
  collapseDashes (l.map (fun c => if isSlugChar c then c else '-'))

/-- JavaScript `replace(/(^-|-$)/g, '')`: drop a single leading and a single
trailing dash. -/
def stripEdgeDashes (l : List Char) : List Char :=
  let l1 := match l with
    | '-' :: t => t
    | t => t
  match l1.reverse with
  | '-' :: t => t.reverse
  | _ => l1

/-- The `slugify` helper of `POST /providers`. -/
def slugify (s : String) : String :=
  ⟨stripEdgeDashes (dashRuns (jsTrim (jsToLower s)).data)⟩

def slugTaken (db : List Provider) (s : String) : Bool :=
  db.any (fun p => p.slug == s)

/-- The collision loop `while (findUnique({slug})) slug = base-i++`: the
first candidate among `base, base-2, base-3, …` not already taken (the
candidate list is long enough that one is always free). -/
def freshSlug (db : List Provider) (base : String) : String :=
  if !slugTaken db base then base
  else
    (((List.range (db.length + 1)).map (fun k => base ++ "-" ++ toString (k + 2))).find?
      (fun s => !slugTaken db s)).getD base

/-- The request body of `POST /providers` (`services` accepts an array or a
comma-separated string). -/
structure CreateBody where
  businessName : Option String := none
  city : Option String := none
  state : Option String := none
  zip : Option String := none
  services : Option (List String ⊕ String) := none
  tagline : Option String := none
  logo : Option String := none

def normalizeServices (v : Option (List String ⊕ String)) : List String :=
  match v with
  | some (.inl arr) => (arr.map (fun s => jsToLower (jsTrim s))).filter (fun s => s != "")
  | some (.inr s) =>
    ((jsSplit ',' s).map (fun x => jsToLower (jsTrim x))).filter (fun x => x != "")
  | none => []

def emptyToNone (s : String) : Option String := if s == "" then none else some s

/-- The `POST /providers` handler.  `newId`/`now` stand for the generated
cuid and `Date.now()`; the created row takes the schema defaults for
`status` (`active`, per the admin-schema migration), `rating`, `verified`
and `disabledReason`. -/
def createProvider (st : Store) (caller : Option User) (body : CreateBody)
    (newId now : Nat) : Store × Except ApiErr Provider :=
  match caller with
  | none => (st, .error .notAuthenticated)
  | some user =>
    if (st.providers.find? (fun p => p.userId == some user.id)).isSome then
      (st, .error .conflict)
    else
      let businessName := jsTrim (body.businessName.getD "")
      let city := jsTrim (body.city.getD "")
      let state := jsTrim (body.state.getD "")
      let zip := emptyToNone (jsTrim (body.zip.getD ""))
      let tagline := emptyToNone (jsTrim (body.tagline.getD ""))
      let logo := emptyToNone (jsTrim (body.logo.getD ""))
      if businessName == "" then (st, .error .validation)
      else if city == "" then (st, .error .validation)
      else if state == "" then (st, .error .validation)
      else if state.length < 2 then (st, .error .validation)
      else
        let base := if slugify businessName == "" then "provider-" ++ toString now
                    else slugify businessName
        let slug := freshSlug st.providers base
        let created : Provider :=
          { id := newId, slug := slug, businessName := businessName,
            email := user.email, tagline := tagline, city := city, state := state,
            zip := zip, logo := logo, services := normalizeServices body.services,
            rating := ⟨0, 1⟩, verified := false, status := providerStatusDefault,
            disabledReason := none, userId := some user.id,
            createdAt := now, updatedAt := now }
        ({ st with providers := st.providers ++ [created] }, .ok created)

/-! ### Admin moderation (`/admin/providers` POST actions and PATCH) -/

/-- The `requireAdmin` gate shared by the admin routes. -/
def requireAdmin (caller : Option User) : Except ApiErr User :=
  match caller with
  | none => .error .notAuthenticated
  | some u => if u.role != UserRole.admin then .error .forbidden else .ok u

def asProviderStatus (v : String) : Option ProviderStatus :=
  match v with
  | "pending" => some .pending
  | "active" => some .active
  | "disabled" => some .disabled
  | _ => none

def updateProvider (ps : List Provider) (id : Nat) (f : Provider → Provider) :
    List Provider :=
  ps.map (fun p => if p.id == id then f p else p)

def findProvider (ps : List Provider) (id : Nat) : Option Provider :=
  ps.find? (fun p => p.id == id)

/-- The `data` of the approve update: `{ status: active }` — `disabledReason`
is not touched. -/
def approveUpdate (p : Provider) : Provider := { p with status := .active }

/-- The `data` of the POST disable update:
`{ status: disabled, disabledReason: reason.trim() || null }`. -/
def disableUpdate (reason : Option String) (p : Provider) : Provider :=
  { p with status := .disabled, disabledReason := emptyToNone (jsTrim (reason.getD "")) }

/-- The `data` of the enable update: `{ status: active, disabledReason: null }`. -/
def enableUpdate (p : Provider) : Provider :=
  { p with status := .active, disabledReason := none }

/-- The `data` of the set-pending update: `{ status: pending, disabledReason: null }`. -/
def pendingUpdate (p : Provider) : Provider :=
  { p with status := .pending, disabledReason := none }

/-- `POST /admin/providers/:id/approve`: sets `status = active` (and touches
nothing else — in particular `disabledReason` is left as it was), then
records an APPROVE audit action with the prior status. -/
def approvePost (st : Store) (caller : Option User) (id : Nat) :
    Store × Except ApiErr (Nat × ProviderStatus) :=
  match requireAdmin caller with
  | .error e => (st, .error e)
  | .ok admin =>
    match findProvider st.providers id with
    | none => (st, .error .notFound)
    | some provider =>
      let providers := updateProvider st.providers id approveUpdate
      let act : AdminAction :=
        { adminUserId := some admin.id, providerId := id,
          type := .APPROVE, meta := .fromTo provider.status .active }
      ({ providers := providers, actions := st.actions ++ [act] }, .ok (id, .active))

/-- The body schema of `POST /admin/providers/:id/disable`: optional
`reason` of at most 200 characters (`minLength: 0`). -/
def validateDisableBody (reason : Option String) : Bool :=
  reason.all (fun r => r.length ≤ 200)

/-- `POST /admin/providers/:id/disable`: sets `status = disabled` and
`disabledReason = reason.trim() || null`, then records a DISABLE audit
action — the handler never rejects an empty reason. -/
def disablePost (st : Store) (caller : Option User) (id : Nat)
    (reason : Option String) :
    Store × Except ApiErr (Nat × ProviderStatus × Option String) :=
  if !validateDisableBody reason then (st, .error .validation)
  else
    match requireAdmin caller with
    | .error e => (st, .error e)
    | .ok admin =>
      match findProvider st.providers id with
      | none => (st, .error .notFound)
      | some _ =>
        let newReason := emptyToNone (jsTrim (reason.getD ""))
        let providers := updateProvider st.providers id (disableUpdate reason)
        let act : AdminAction :=
          { adminUserId := some admin.id, providerId := id,
            type := .DISABLE, meta := .reason newReason }
        ({ providers := providers, actions := st.actions ++ [act] },
         .ok (id, .disabled, newReason))

/-- `POST /admin/providers/:id/enable`: `status = active`,
`disabledReason = null`, ENABLE audit action. -/
def enablePost (st : Store) (caller : Option User) (id : Nat) :
    Store × Except ApiErr (Nat × ProviderStatus) :=
  match requireAdmin caller with
  | .error e => (st, .error e)
  | .ok admin =>
    match findProvider st.providers id with
    | none => (st, .error .notFound)
    | some _ =>
      let providers := updateProvider st.providers id enableUpdate
      let act : AdminAction :=
        { adminUserId := some admin.id, providerId := id,
          type := .ENABLE, meta := .noMeta }
      ({ providers := providers, actions := st.actions ++ [act] }, .ok (id, .active))

/-- `POST /admin/providers/:id/pending`: `status = pending`,
`disabledReason = null`, REVIEW audit action with the prior status. -/
def pendingPost (st : Store) (caller : Option User) (id : Nat) :
    Store × Except ApiErr (Nat × ProviderStatus) :=
  match requireAdmin caller with
  | .error e => (st, .error e)
  | .ok admin =>
    match findProvider st.providers id with
    | none => (st, .error .notFound)
    | some provider =>
      let providers := updateProvider st.providers id pendingUpdate
      let act : AdminAction :=
        { adminUserId := some admin.id, providerId := id,
          type := .REVIEW, meta := .fromTo provider.status .pending }
      ({ providers := providers, actions := st.actions ++ [act] }, .ok (id, .pending))

/-- The body of `PATCH /admin/providers/:id`.  `disabledReason` distinguishes
absent (`none`) from present-but-null (`some none`). -/
structure PatchBody where
  status : Option String := none
  disabledReason : Option (Option String) := none
  verified : Option Bool := none

/-- JavaScript `String(body.disabledReason || '')` for a present field. -/
def reasonString (v : Option String) : String :=
  match v with
  | some s => if s == "" then "" else s
  | none => ""

/-- `PATCH /admin/providers/:id`: optional status change (disabling demands
a non-empty trimmed reason *before* any write; any other status clears the
reason), reason-only edits only while disabled, optional verified toggle.
This route writes no audit record at all. -/
def patchAdmin (st : Store) (caller : Option User) (id : Nat) (body : PatchBody) :
    Store × Except ApiErr Provider :=
  match requireAdmin caller with
  | .error e => (st, .error e)
  | .ok _ =>
    match body.status with
    | some statusRaw =>
      match asProviderStatus statusRaw with
      | none => (st, .error .validation)
      | some next =>
        if next == ProviderStatus.disabled then
          let reason := jsTrim (reasonString (body.disabledReason.getD none))
          if reason == "" then (st, .error .validation)
          else
            patchApply st id (fun p =>
              { p with status := next, disabledReason := some reason,
                       verified := body.verified.getD p.verified })
        else
          patchApply st id (fun p =>
            { p with status := next, disabledReason := none,
                     verified := body.verified.getD p.verified })
    | none =>
      match body.disabledReason with
      | some dr =>
        match findProvider st.providers id with
        | none => (st, .error .notFound)
        | some existing =>
          if existing.status != ProviderStatus.disabled then (st, .error .validation)
          else
            patchApply st id (fun p =>
              { p with disabledReason := emptyToNone (jsTrim (reasonString dr)),
                       verified := body.verified.getD p.verified })
      | none =>
        match body.verified with
        | some v => patchApply st id (fun p => { p with verified := v })
        | none => (st, .error .validation)
where
  /-- `prisma.provider.update({ where: {id}, data })`: a missing row makes
  the update throw, surfaced as a 500. -/
  patchApply (st : Store) (id : Nat) (f : Provider → Provider) :
      Store × Except ApiErr Provider :=
    match findProvider st.providers id with
    | none => (st, .error .internal)
    | some p =>
      ({ st with providers := updateProvider st.providers id f }, .ok (f p))

/-! ### Spec-side definitions used by refinement claims -/

/-- The general any/all service-match logic as the spec words it: under
`all` a record qualifies when its services contain every requested tag,
under `any` when they contain at least one. -/
def specServiceMatch (m : MatchMode) (tags svcs : List String) : Bool :=
  match m with
  | .all => tags.all (fun t => svcs.contains t)
  | .any => tags.any (fun t => svcs.contains t)

/-- The conjunction of the service-filter clauses the handler pushes. -/
def servicePass (service matchRaw : Option String) (p : Provider) : Bool :=
  (serviceFilter service matchRaw).all (fun f => f p)

/-- The documented relationship between `disabledReason` and `status`. -/
def reasonInvariant (p : Provider) : Prop :=
  p.disabledReason ≠ none ↔ p.status = ProviderStatus.disabled

/-! ### Sample records used by witnesses and counterexamples -/

def sampleActive : Provider :=
  { id := 1, slug := "windy-city-growth", businessName := "Windy City Growth",
    email := "a@x.com", tagline := none, city := "Chicago", state := "IL",
    zip := none, logo := none, services := ["seo", "ads"], rating := ⟨47, 10⟩,
    verified := true, status := .active, disabledReason := none, userId := some 10,
    createdAt := 100, updatedAt := 100 }

def samplePending : Provider :=
  { sampleActive with
    id := 2, slug := "acme", businessName := "Acme Co", rating := ⟨30, 10⟩,
    verified := false, status := .pending, userId := some 20, createdAt := 200 }

def sampleDisabled : Provider :=
  { sampleActive with
    id := 3, slug := "beta", businessName := "Beta LLC", rating := ⟨50, 10⟩,
    status := .disabled, disabledReason := some "policy", userId := some 30,
    createdAt := 300 }

def sampleDb : List Provider := [sampleActive, samplePending, sampleDisabled]

def adminU : User := { id := 9, email := "admin@x.com", role := .admin }

def ownerU : User := { id := 20, email := "owner@x.com", role := .provider }

/-! ### Helper lemmas -/

theorem perm_insertLe {α : Type} (le : α → α → Bool) (x : α) (l : List α) :
    (insertLe le x l).Perm (x :: l) := by
  induction l with
  | nil => simp [insertLe]
  | cons y ys ih =>
    simp only [insertLe]
    by_cases h : le x y = true
    · simp [h]
    · simp only [h, Bool.false_eq_true, if_false]
      exact (ih.cons y).trans (List.Perm.swap x y ys)

theorem perm_sortLe {α : Type} (le : α → α → Bool) (l : List α) :
    (sortLe le l).Perm l := by
  induction l with
  | nil => simp [sortLe]
  | cons x xs ih => exact (perm_insertLe le x (sortLe le xs)).trans (ih.cons x)

theorem length_sortLe {α : Type} (le : α → α → Bool) (l : List α) :
    (sortLe le l).length = l.length :=
  (perm_sortLe le l).length_eq

theorem mem_sortLe {α : Type} {le : α → α → Bool} {l : List α} {a : α} :
    a ∈ sortLe le l ↔ a ∈ l :=
  (perm_sortLe le l).mem_iff

theorem flatMap_slices {α : Type} (lim : Nat) (l : List α) (k : Nat) :
    ((List.range k).flatMap (fun i => (l.drop (i * lim)).take lim)) = l.take (k * lim) := by
  induction k with
  | zero => simp
  | succ n ih =>
    rw [List.range_succ, List.flatMap_append, ih]
    simp only [List.flatMap_cons, List.flatMap_nil, List.append_nil]
    rw [Nat.succ_mul, List.take_add]

theorem le_ceil_mul (t lim : Nat) (h : 0 < lim) :
    t ≤ (max 1 ((t + lim - 1) / lim)) * lim := by
  rcases Nat.eq_zero_or_pos t with h0 | h0
  · simp [h0]
  · have hrw : t + lim - 1 = t - 1 + lim := by omega
    rw [hrw, Nat.add_div_right _ h,
      Nat.max_eq_right (Nat.succ_le_succ (Nat.zero_le _))]
    have h3 : t - 1 < lim * ((t - 1) / lim) + lim := by
      conv_lhs => rw [← Nat.div_add_mod (t - 1) lim]
      exact Nat.add_lt_add_left (Nat.mod_lt _ h) _
    have h4 : ((t - 1) / lim + 1) * lim = lim * ((t - 1) / lim) + lim := by ring
    rw [h4]
    exact Nat.le_of_pred_lt (by simpa using h3)

theorem find?_eq_some_unique {db : List Provider} {p : Provider} {f : Provider → Bool}
    (hU : db.Pairwise (fun a b => a.slug ≠ b.slug)) (hp : p ∈ db)
    (hslug : ∀ r, f r = true → r.slug = p.slug) (hf : f p = true) :
    db.find? f = some p := by
  induction db with
  | nil => cases hp
  | cons r rest ih =>
    obtain ⟨h1, h2⟩ := List.pairwise_cons.mp hU
    rcases List.mem_cons.mp hp with h | h
    · subst h
      exact List.find?_cons_of_pos _ hf
    · have hr : ¬ f r = true := by
        intro hfr
        exact absurd (hslug r hfr) (h1 p h)
      rw [List.find?_cons_of_neg _ hr]
      exact ih h2 h

theorem find?_eq_none_unique {db : List Provider} {p : Provider} {f : Provider → Bool}
    (hU : db.Pairwise (fun a b => a.slug ≠ b.slug)) (hp : p ∈ db)
    (hslug : ∀ r, f r = true → r.slug = p.slug) (hf : f p = false) :
    db.find? f = none := by
  induction db with
  | nil => rfl
  | cons r rest ih =>
    obtain ⟨h1, h2⟩ := List.pairwise_cons.mp hU
    rcases List.mem_cons.mp hp with h | h
    · subst h
      rw [List.find?_cons_of_neg _ (by simp [hf])]
      exact List.find?_eq_none.mpr (fun x hx hfx =>
        absurd (hslug x hfx).symm (h1 x hx))
    · have hr : ¬ f r = true := by
        intro hfr
        exact absurd (hslug r hfr) (h1 p h)
      rw [List.find?_cons_of_neg _ hr]
      exact ih h2 h

theorem not_mem_map_fst_filter_ne (l : List (String × FieldVal)) (k : String) :
    k ∉ ((l.filter (fun kv => kv.1 != k)).map Prod.fst) := by
  intro h
  obtain ⟨kv, hmem, hfst⟩ := List.mem_map.mp h
  have hkv := List.of_mem_filter hmem
  rw [hfst] at hkv
  simp at hkv

theorem listProviders_rows (q : ListQuery) (db : List Provider) :
    (listProviders q db).rows =
      ((sortedWhere q db).drop ((pageNum q.page - 1) * limitNum q.limit)).take
        (limitNum q.limit) := rfl

theorem listProviders_total (q : ListQuery) (db : List Provider) :
    (listProviders q db).meta.total = (db.filter (wherePred q)).length := rfl

theorem listProviders_limit (q : ListQuery) (db : List Provider) :
    (listProviders q db).meta.limit = limitNum q.limit := rfl

theorem listProviders_page (q : ListQuery) (db : List Provider) :
    (listProviders q db).meta.page = pageNum q.page := rfl

theorem listProviders_totalPages (q : ListQuery) (db : List Provider) :
    (listProviders q db).meta.totalPages =
      max 1 (((db.filter (wherePred q)).length + limitNum q.limit - 1) /
        limitNum q.limit) := rfl

theorem listProviders_data (q : ListQuery) (db : List Provider) :
    (listProviders q db).data = (listProviders q db).rows.map providerSummarySelect := rfl

theorem limitNum_pos (raw : Option String) : 1 ≤ limitNum raw := by
  unfold limitNum
  split
  · omega
  · split
    · omega
    · omega

theorem limitNum_le (raw : Option String) : limitNum raw ≤ 50 := by
  unfold limitNum
  split
  · omega
  · split
    · omega
    · omega

theorem pageNum_pos (raw : Option String) : 1 ≤ pageNum raw := by
  unfold pageNum
  split
  · omega
  · split
    · omega
    · omega

theorem length_sortedWhere (q : ListQuery) (db : List Provider) :
    (sortedWhere q db).length = (db.filter (wherePred q)).length :=
  length_sortLe _ _

theorem wherePred_active {q : ListQuery} {p : Provider}
    (h : wherePred q p = true) : p.status = ProviderStatus.active := by
  simp only [wherePred, Bool.and_eq_true, beq_iff_eq] at h
  exact h.2

theorem mem_rows_wherePred {q : ListQuery} {db : List Provider} {p : Provider}
    (h : p ∈ (listProviders q db).rows) : wherePred q p = true := by
  rw [listProviders_rows] at h
  have h1 : p ∈ sortedWhere q db := List.mem_of_mem_drop (List.mem_of_mem_take h)
  have h2 : p ∈ db.filter (wherePred q) := mem_sortLe.mp h1
  exact List.of_mem_filter h2

/-! ### Claim theorems -/

/-- C1: for every public listing query, whatever optional filters the
caller supplies, every row in the result has `status == active`, and
`meta.total` counts only rows satisfying the filter-plus-visibility
predicate, which itself forces `status == active`: the base filter is
always intersected and no parameter can override it. -/
theorem listing_rows_all_active (q : ListQuery) (db : List Provider) :
    (∀ p ∈ (listProviders q db).rows, p.status = ProviderStatus.active) ∧
    (listProviders q db).meta.total = (db.filter (wherePred q)).length ∧
    (∀ p : Provider, wherePred q p = true → p.status = ProviderStatus.active) := by
  refine ⟨?_, rfl, fun p h => wherePred_active h⟩
  intro p hp
  exact wherePred_active (mem_rows_wherePred hp)

theorem listing_rows_all_active_witness :
    sampleActive ∈ (listProviders {} sampleDb).rows ∧
    sampleActive.status = ProviderStatus.active :=
  ⟨by decide, (listing_rows_all_active {} sampleDb).1 sampleActive (by decide)⟩

/-- C5: pagination of the public listing — `limit` is clamped to `[1,50]`
with default 20, `page` is at least 1 with default 1, `meta.total` counts
the whole match set independently of `page`/`limit`, a page holds at most
`limit` rows, `totalPages = max 1 ⌈total/limit⌉`, an empty match set gives
`total=0`, `totalPages=1` and empty data without error, and a page beyond
`totalPages` gives an empty page with the same total, not an error. -/
theorem listing_pagination_meta (q : ListQuery) (db : List Provider) :
    (1 ≤ (listProviders q db).meta.limit ∧ (listProviders q db).meta.limit ≤ 50) ∧
    (q.limit = none → (listProviders q db).meta.limit = 20) ∧
    1 ≤ (listProviders q db).meta.page ∧
    (q.page = none → (listProviders q db).meta.page = 1) ∧
    ((listProviders q db).meta.total = (db.filter (wherePred q)).length ∧
      ∀ ps ls : Option String,
        (listProviders { q with page := ps, limit := ls } db).meta.total =
          (listProviders q db).meta.total) ∧
    (listProviders q db).data.length ≤ (listProviders q db).meta.limit ∧
    (listProviders q db).meta.totalPages =
      max 1 (((listProviders q db).meta.total + (listProviders q db).meta.limit - 1) /
        (listProviders q db).meta.limit) ∧
    (db.filter (wherePred q) = [] →
      (listProviders q db).meta.total = 0 ∧
      (listProviders q db).meta.totalPages = 1 ∧
      (listProviders q db).data = []) ∧
    ((listProviders q db).meta.page > (listProviders q db).meta.totalPages →
      (listProviders q db).data = [] ∧
      (listProviders q db).meta.total = (db.filter (wherePred q)).length) := by
  refine ⟨⟨limitNum_pos q.limit, limitNum_le q.limit⟩, ?_, pageNum_pos q.page, ?_,
    ⟨rfl, ?_⟩, ?_, rfl, ?_, ?_⟩
  · intro h
    rw [listProviders_limit, h]
    rfl
  · intro h
    rw [listProviders_page, h]
    rfl
  · intro ps ls
    rw [listProviders_total, listProviders_total]
    cases q
    rfl
  · rw [listProviders_data, List.length_map, listProviders_rows, listProviders_limit,
      List.length_take]
    omega
  · intro h
    refine ⟨by rw [listProviders_total, h]; rfl, ?_, ?_⟩
    · rw [listProviders_totalPages, h]
      have h1 := limitNum_pos q.limit
      have h2 : (limitNum q.limit - 1) / limitNum q.limit = 0 :=
        Nat.div_eq_of_lt (by omega)
      simp [h2]
    · rw [listProviders_data, listProviders_rows]
      unfold sortedWhere
      rw [h]
      simp [sortLe]
  · intro h
    rw [listProviders_page, listProviders_totalPages] at h
    have hlim := limitNum_pos q.limit
    have hceil := le_ceil_mul (db.filter (wherePred q)).length (limitNum q.limit)
      (by omega)
    have hskip : (sortedWhere q db).length ≤ (pageNum q.page - 1) * limitNum q.limit := by
      rw [length_sortedWhere]
      calc (db.filter (wherePred q)).length
          ≤ (max 1 (((db.filter (wherePred q)).length + limitNum q.limit - 1) /
              limitNum q.limit)) * limitNum q.limit := hceil
        _ ≤ (pageNum q.page - 1) * limitNum q.limit :=
            Nat.mul_le_mul_right _ (by omega)
    refine ⟨?_, rfl⟩
    rw [listProviders_data, listProviders_rows, List.drop_eq_nil_of_le hskip]
    simp

theorem listing_pagination_meta_witness :
    ({} : ListQuery).limit = none ∧ ({} : ListQuery).page = none ∧
    (listProviders {} sampleDb).meta.limit = 20 ∧
    (listProviders {} sampleDb).meta.page = 1 ∧
    ((listProviders { name := some "zzz" } sampleDb).data = [] ∧
      (listProviders { name := some "zzz" } sampleDb).meta.totalPages = 1) ∧
    (listProviders { page := some "7" } sampleDb).data = [] := by
  refine ⟨rfl, rfl, (listing_pagination_meta {} sampleDb).2.1 rfl,
    (listing_pagination_meta {} sampleDb).2.2.2.1 rfl,
    ⟨((listing_pagination_meta { name := some "zzz" } sampleDb).2.2.2.2.2.2.2.1
        (by decide)).2.2,
      ((listing_pagination_meta { name := some "zzz" } sampleDb).2.2.2.2.2.2.2.1
        (by decide)).2.1⟩,
    ((listing_pagination_meta { page := some "7" } sampleDb).2.2.2.2.2.2.2.2
        (by decide)).1⟩

/-- C6: the sort key defaults to `newest`; the direction defaults to `asc`
for `sort=name` and `desc` otherwise; the effective `orderBy` chain is the
primary key followed by exactly the fixed tie-break sequence rating desc,
verified desc, businessName asc, createdAt desc, skipping a key already
used as primary; the returned page is a window of one deterministically
sorted list, and the windows of pages `1..totalPages` concatenate back to
that list, so no row is duplicated or skipped across pages. -/
theorem listing_sort_tiebreak :
    asSortKey none = SortKey.newest ∧
    asOrder none SortKey.name = OrderDir.asc ∧
    (∀ k : SortKey, k ≠ SortKey.name → asOrder none k = OrderDir.desc) ∧
    (∀ (sk : SortKey) (ord : OrderDir),
      orderByChain sk ord =
        (primaryField sk, ord) ::
          ([(SortField.rating, OrderDir.desc), (SortField.verified, OrderDir.desc),
            (SortField.businessName, OrderDir.asc),
            (SortField.createdAt, OrderDir.desc)].filter
              (fun e => e.1 != primaryField sk))) ∧
    (∀ (q : ListQuery) (db : List Provider),
      (listProviders q db).rows =
        ((sortedWhere q db).drop ((pageNum q.page - 1) * limitNum q.limit)).take
          (limitNum q.limit)) ∧
    (∀ (q : ListQuery) (db : List Provider),
      ((List.range (listProviders q db).meta.totalPages).flatMap
          (fun i => ((sortedWhere q db).drop (i * limitNum q.limit)).take
            (limitNum q.limit))) = sortedWhere q db) := by
  refine ⟨rfl, rfl, ?_, ?_, fun q db => rfl, ?_⟩
  · intro k hk
    cases k with
    | name => exact absurd rfl hk
    | newest => rfl
    | rating => rfl
    | verified => rfl
  · intro sk ord
    cases sk <;> cases ord <;> rfl
  · intro q db
    rw [flatMap_slices]
    apply List.take_of_length_le
    rw [length_sortedWhere]
    have hlim := limitNum_pos q.limit
    exact le_ceil_mul _ _ (by omega)

theorem listing_sort_tiebreak_witness :
    asOrder none SortKey.rating = OrderDir.desc ∧
    ((List.range (listProviders {} sampleDb).meta.totalPages).flatMap
        (fun i => ((sortedWhere {} sampleDb).drop (i * limitNum ({} : ListQuery).limit)).take
          (limitNum ({} : ListQuery).limit))) = sortedWhere {} sampleDb :=
  ⟨listing_sort_tiebreak.2.2.1 SortKey.rating (by decide),
   listing_sort_tiebreak.2.2.2.2.2 {} sampleDb⟩

/-- C7: with a service filter in effect, the pushed clause agrees with the
general any/all logic — under `all` a record passes exactly when its
services contain every requested tag, under `any` (the default) exactly
when they contain at least one — the single-token fast path (`has`)
selects exactly what the general logic selects on a one-element tag list,
and every returned row satisfies the general logic. -/
theorem service_filter_refinement (s : String) (mRaw : Option String)
    (hs : jsTrim s ≠ "") (ht : serviceTokens s ≠ []) :
    (∀ p : Provider,
      servicePass (some s) mRaw p =
        specServiceMatch (asMatch mRaw) (serviceTokens s) p.services) ∧
    (∀ (t : String) (p : Provider), serviceTokens s = [t] →
      servicePass (some s) mRaw p = p.services.contains t ∧
      specServiceMatch MatchMode.all [t] p.services = p.services.contains t ∧
      specServiceMatch MatchMode.any [t] p.services = p.services.contains t) ∧
    (∀ (q : ListQuery) (db : List Provider), q.service = some s → q.«match» = mRaw →
      ∀ r ∈ (listProviders q db).rows,
        specServiceMatch (asMatch mRaw) (serviceTokens s) r.services = true) := by
  have hmain : ∀ p : Provider,
      servicePass (some s) mRaw p =
        specServiceMatch (asMatch mRaw) (serviceTokens s) p.services := by
    intro p
    simp only [servicePass, serviceFilter]
    rw [if_neg (by simpa using hs)]
    cases htk : serviceTokens s with
    | nil => exact absurd htk ht
    | cons t ts =>
      cases ts with
      | nil => cases asMatch mRaw <;> simp [specServiceMatch]
      | cons t2 ts2 => cases asMatch mRaw <;> simp [specServiceMatch]
  refine ⟨hmain, ?_, ?_⟩
  · intro t p htk
    rw [hmain p, htk]
    cases asMatch mRaw <;> simp [specServiceMatch]
  · intro q db hq hm r hr
    have hw := mem_rows_wherePred hr
    simp only [wherePred, Bool.and_eq_true] at hw
    have hall := hw.1
    simp only [andFilters, List.all_append, Bool.and_eq_true] at hall
    have hsv := hall.1.1.2
    rw [hq, hm] at hsv
    rw [← hmain r]
    exact hsv

theorem service_filter_refinement_witness :
    jsTrim "seo,ads" ≠ "" ∧ serviceTokens "seo,ads" ≠ [] ∧
    servicePass (some "seo,ads") (some "all") sampleActive =
      specServiceMatch (asMatch (some "all")) (serviceTokens "seo,ads")
        sampleActive.services ∧
    servicePass (some "seo") none samplePending = samplePending.services.contains "seo" :=
  ⟨by decide, by decide,
   (service_filter_refinement "seo,ads" (some "all") (by decide) (by decide)).1
     sampleActive,
   ((service_filter_refinement "seo" none (by decide) (by decide)).2.1
     "seo" samplePending (by decide)).1⟩

/-- C2: for a provider whose status is not `active`, the detail lookup by
slug returns the very same masked NotFound to an anonymous caller, to any
authenticated non-owner, and for a slug that matches no record at all;
only the authenticated owner receives the record.  For an `active`
provider the lookup succeeds for every caller. -/
theorem detail_masked_visibility (db : List Provider) (p : Provider)
    (hU : db.Pairwise (fun a b => a.slug ≠ b.slug)) (hp : p ∈ db) :
    (p.status ≠ ProviderStatus.active →
      getProviderDetail db p.slug none = .error .notFound ∧
      (∀ u : User, p.userId ≠ some u.id →
        getProviderDetail db p.slug (some u) = .error .notFound) ∧
      (∀ u : User, p.userId = some u.id →
        getProviderDetail db p.slug (some u) = .ok (ownerVisible p))) ∧
    (∀ s : String, (∀ r ∈ db, r.slug ≠ s) →
      ∀ c : Option User, getProviderDetail db s c = .error .notFound) ∧
    (p.status = ProviderStatus.active →
      ∀ c : Option User, getProviderDetail db p.slug c = .ok (providerDetailSelect p)) := by
  refine ⟨?_, ?_, ?_⟩
  · intro hstat
    have hf1 : db.find?
        (fun r => r.slug == p.slug && r.status == ProviderStatus.active) = none := by
      apply find?_eq_none_unique hU hp
      · intro r hr
        simp only [Bool.and_eq_true, beq_iff_eq] at hr
        exact hr.1
      · simp [hstat]
    have hf2 : db.find? (fun r => r.slug == p.slug) = some p := by
      apply find?_eq_some_unique hU hp
      · intro r hr
        simpa using hr
      · simp
    refine ⟨?_, ?_, ?_⟩
    · simp [getProviderDetail, hf1, hf2]
    · intro u hne
      simp [getProviderDetail, hf1, hf2, hne]
    · intro u howner
      simp [getProviderDetail, hf1, hf2, howner]
  · intro s hnone c
    have hfa : db.find?
        (fun r => r.slug == s && r.status == ProviderStatus.active) = none := by
      refine List.find?_eq_none.mpr (fun x hx hpred => ?_)
      simp only [Bool.and_eq_true, beq_iff_eq] at hpred
      exact absurd hpred.1 (hnone x hx)
    have hfb : db.find? (fun r => r.slug == s) = none := by
      refine List.find?_eq_none.mpr (fun x hx hpred => ?_)
      simp only [beq_iff_eq] at hpred
      exact absurd hpred (hnone x hx)
    simp [getProviderDetail, hfa, hfb]
  · intro hstat c
    have hf1 : db.find?
        (fun r => r.slug == p.slug && r.status == ProviderStatus.active) = some p := by
      apply find?_eq_some_unique hU hp
      · intro r hr
        simp only [Bool.and_eq_true, beq_iff_eq] at hr
        exact hr.1
      · simp [hstat]
    simp [getProviderDetail, hf1]

theorem detail_masked_visibility_witness :
    samplePending.status ≠ ProviderStatus.active ∧
    getProviderDetail sampleDb "acme" none = .error .notFound ∧
    getProviderDetail sampleDb "acme" (some adminU) = .error .notFound ∧
    getProviderDetail sampleDb "no-such-slug" none = .error .notFound ∧
    getProviderDetail sampleDb "acme" (some ownerU) = .ok (ownerVisible samplePending) ∧
    getProviderDetail sampleDb "windy-city-growth" none =
      .ok (providerDetailSelect sampleActive) :=
  ⟨by decide,
   ((detail_masked_visibility sampleDb samplePending (by decide) (by decide)).1
      (by decide)).1,
   ((detail_masked_visibility sampleDb samplePending (by decide) (by decide)).1
      (by decide)).2.1 adminU (by decide),
   (detail_masked_visibility sampleDb samplePending (by decide) (by decide)).2.1
      "no-such-slug" (by decide) none,
   ((detail_masked_visibility sampleDb samplePending (by decide) (by decide)).1
      (by decide)).2.2 ownerU (by decide),
   (detail_masked_visibility sampleDb sampleActive (by decide) (by decide)).2.2
      (by decide) none⟩

/-- C10: a detail-lookup response never carries the owning user id: the
active-path projection has no `userId` key at all, and the owner path,
which selects `userId` only for the ownership check, strips it before
replying. -/
theorem detail_omits_userId (db : List Provider) (slug : String)
    (caller : Option User) (payload : List (String × FieldVal))
    (h : getProviderDetail db slug caller = .ok payload) :
    "userId" ∉ payload.map Prod.fst := by
  unfold getProviderDetail at h
  cases hf1 : db.find?
      (fun p => p.slug == slug && p.status == ProviderStatus.active) with
  | some p =>
    simp only [hf1, Except.ok.injEq] at h
    subst h
    have hkeys : (providerDetailSelect p).map Prod.fst =
        ["id", "slug", "businessName", "email", "tagline", "city", "state", "zip",
         "services", "rating", "verified", "logo", "status", "disabledReason",
         "createdAt", "updatedAt"] := rfl
    rw [hkeys]
    decide
  | none =>
    simp only [hf1] at h
    cases hf2 : db.find? (fun p => p.slug == slug) with
    | none => simp [hf2] at h
    | some p =>
      simp only [hf2] at h
      cases caller with
      | none => simp at h
      | some u =>
        by_cases hid : (p.userId == some u.id) = true
        · simp only [hid, if_true, Except.ok.injEq] at h
          subst h
          exact not_mem_map_fst_filter_ne _ _
        · simp [hid] at h

theorem detail_omits_userId_witness :
    "userId" ∉ ((ownerVisible samplePending).map Prod.fst) :=
  detail_omits_userId sampleDb "acme" (some ownerU) (ownerVisible samplePending)
    (by decide)

instance (p : Provider) : Decidable (reasonInvariant p) := by
  unfold reasonInvariant
  infer_instance

/-- C3 counterexample: the claimed invariant `disabledReason ≠ null ↔
status = disabled` is broken by three concrete transitions — Approve on a
disabled record keeps its reason while activating it, POST disable with a
blank reason stores a disabled record with a null reason, and a
reason-only PATCH can null the reason of a record that stays disabled. -/
theorem disabled_reason_iff_cex :
    ((approvePost ⟨[sampleDisabled], []⟩ (some adminU) 3).1.providers =
      [{ sampleDisabled with status := ProviderStatus.active }]) ∧
    ¬ reasonInvariant { sampleDisabled with status := ProviderStatus.active } ∧
    ((disablePost ⟨[sampleActive], []⟩ (some adminU) 1 (some " ")).1.providers =
      [{ sampleActive with status := ProviderStatus.disabled, disabledReason := none }]) ∧
    ¬ reasonInvariant
      { sampleActive with status := ProviderStatus.disabled, disabledReason := none } ∧
    ((patchAdmin ⟨[sampleDisabled], []⟩ (some adminU) 3
        { disabledReason := some (some "") }).1.providers =
      [{ sampleDisabled with disabledReason := none }]) ∧
    ¬ reasonInvariant { sampleDisabled with disabledReason := none } := by decide

/-- C3 amended: Enable and Set-pending always clear `disabledReason` and
re-establish the invariant; POST disable with a non-blank reason and any
status-changing PATCH establish it as well; but Approve leaves
`disabledReason` untouched (so approving a disabled record yields an
active record with a non-null reason), POST disable with a blank reason
yields a disabled record with a null reason, and a reason-only PATCH may
null the reason of a still-disabled record. -/
theorem disabled_reason_amended :
    (∀ p : Provider, reasonInvariant (enableUpdate p) ∧
      (enableUpdate p).disabledReason = none ∧
      (enableUpdate p).status = ProviderStatus.active) ∧
    (∀ p : Provider, reasonInvariant (pendingUpdate p) ∧
      (pendingUpdate p).disabledReason = none) ∧
    (∀ (p : Provider) (r : Option String), jsTrim (r.getD "") ≠ "" →
      reasonInvariant (disableUpdate r p) ∧
      (disableUpdate r p).disabledReason = some (jsTrim (r.getD ""))) ∧
    (∀ (p : Provider) (r : Option String), jsTrim (r.getD "") = "" →
      (disableUpdate r p).status = ProviderStatus.disabled ∧
      (disableUpdate r p).disabledReason = none) ∧
    (∀ p : Provider, (approveUpdate p).status = ProviderStatus.active ∧
      (approveUpdate p).disabledReason = p.disabledReason) ∧
    (∀ (st : Store) (caller : Option User) (id : Nat) (body : PatchBody)
        (st' : Store) (pr : Provider), body.status.isSome →
      patchAdmin st caller id body = (st', .ok pr) → reasonInvariant pr) := by
  refine ⟨?_, ?_, ?_, ?_, ?_, ?_⟩
  · intro p
    simp [enableUpdate, reasonInvariant]
  · intro p
    simp [pendingUpdate, reasonInvariant]
  · intro p r h
    have hb : (jsTrim (r.getD "") == "") = false := beq_eq_false_iff_ne.mpr h
    simp [disableUpdate, emptyToNone, hb, reasonInvariant]
  · intro p r h
    simp [disableUpdate, emptyToNone, h, reasonInvariant]
  · intro p
    simp [approveUpdate]
  · intro st caller id body st' pr hsome h
    unfold patchAdmin at h
    cases hadm : requireAdmin caller with
    | error e => simp [hadm] at h
    | ok admin =>
      simp only [hadm] at h
      cases hbs : body.status with
      | none => rw [hbs] at hsome; simp at hsome
      | some sRaw =>
        simp only [hbs] at h
        cases hps : asProviderStatus sRaw with
        | none => simp [hps] at h
        | some next =>
          simp only [hps] at h
          by_cases hnd : (next == ProviderStatus.disabled) = true
          · have hnext := beq_iff_eq.mp hnd
            simp only [hnd, if_true] at h
            by_cases hre :
                (jsTrim (reasonString (body.disabledReason.getD none)) == "") = true
            · simp [hre] at h
            · simp only [hre, Bool.false_eq_true, if_false] at h
              unfold patchAdmin.patchApply at h
              cases hfp : findProvider st.providers id with
              | none => simp [hfp] at h
              | some p0 =>
                simp only [hfp, Prod.mk.injEq, Except.ok.injEq] at h
                obtain ⟨-, h2⟩ := h
                subst h2
                simp [reasonInvariant, hnext]
          · simp only [hnd, Bool.false_eq_true, if_false] at h
            unfold patchAdmin.patchApply at h
            cases hfp : findProvider st.providers id with
            | none => simp [hfp] at h
            | some p0 =>
              simp only [hfp, Prod.mk.injEq, Except.ok.injEq] at h
              obtain ⟨-, h2⟩ := h
              subst h2
              simp only [reasonInvariant]
              simp
              intro hx
              exact absurd (by simp [hx] : (next == ProviderStatus.disabled) = true) hnd

theorem disabled_reason_amended_witness :
    reasonInvariant (enableUpdate sampleDisabled) ∧
    reasonInvariant (disableUpdate (some "policy") sampleActive) ∧
    reasonInvariant { sampleActive with
      status := ProviderStatus.disabled, disabledReason := some "bad" } :=
  ⟨(disabled_reason_amended.1 sampleDisabled).1,
   (disabled_reason_amended.2.2.1 sampleActive (some "policy") (by decide)).1,
   disabled_reason_amended.2.2.2.2.2 ⟨[sampleActive], []⟩ (some adminU) 1
     { status := some "disabled", disabledReason := some (some "bad") }
     ⟨[{ sampleActive with
        status := ProviderStatus.disabled, disabledReason := some "bad" }], []⟩
     { sampleActive with
        status := ProviderStatus.disabled, disabledReason := some "bad" }
     (by decide) (by decide)⟩

/-- C4 counterexample: a POST disable with a whitespace-only reason does
not fail — it succeeds, mutates the provider to `disabled` with a null
reason, and appends a DISABLE audit action. -/
theorem disable_empty_reason_cex :
    (disablePost ⟨[sampleActive], []⟩ (some adminU) 1 (some "  ")).2 =
      .ok (1, ProviderStatus.disabled, none) ∧
    (disablePost ⟨[sampleActive], []⟩ (some adminU) 1 (some "  ")).1 =
      ⟨[{ sampleActive with status := ProviderStatus.disabled, disabledReason := none }],
       [{ adminUserId := some 9, providerId := 1, type := AdminActionType.DISABLE,
           meta := ActionMeta.reason none }]⟩ := by decide

/-- C4 amended: the empty-reason guard exists only on the PATCH route —
there a disable with a blank trimmed reason fails with a validation error
before any mutation, the store (providers and audit log alike) is
untouched; the POST disable route instead accepts a blank reason, stores
`disabledReason = null` and still appends a DISABLE audit action. -/
theorem disable_empty_reason_amended :
    (∀ (st : Store) (u : User) (id : Nat) (dr : Option (Option String))
        (v : Option Bool), u.role = UserRole.admin →
      jsTrim (reasonString (dr.getD none)) = "" →
      patchAdmin st (some u) id
        { status := some "disabled", disabledReason := dr, verified := v } =
        (st, .error .validation)) ∧
    (∀ (st : Store) (u : User) (id : Nat) (r : Option String),
      u.role = UserRole.admin → validateDisableBody r = true →
      (findProvider st.providers id).isSome → jsTrim (r.getD "") = "" →
      disablePost st (some u) id r =
        ({ providers := updateProvider st.providers id (disableUpdate r),
           actions := st.actions ++
             [{ adminUserId := some u.id, providerId := id,
                type := AdminActionType.DISABLE, meta := ActionMeta.reason none }] },
         .ok (id, ProviderStatus.disabled, none))) := by
  constructor
  · intro st u id dr v hrole hre
    have hadm : requireAdmin (some u) = .ok u := by simp [requireAdmin, hrole]
    simp [patchAdmin, hadm, asProviderStatus, hre]
  · intro st u id r hrole hval hfind htrim
    have hadm : requireAdmin (some u) = .ok u := by simp [requireAdmin, hrole]
    obtain ⟨p0, hp0⟩ := Option.isSome_iff_exists.mp hfind
    simp [disablePost, hadm, hp0, hval, htrim, emptyToNone]

theorem disable_empty_reason_amended_witness :
    patchAdmin ⟨[sampleActive], []⟩ (some adminU) 1
      { status := some "disabled", disabledReason := some (some " "), verified := none } =
      (⟨[sampleActive], []⟩, .error .validation) ∧
    disablePost ⟨[sampleActive], []⟩ (some adminU) 1 none =
      ({ providers := updateProvider [sampleActive] 1 (disableUpdate none),
         actions :=
           [{ adminUserId := some 9, providerId := 1,
              type := AdminActionType.DISABLE, meta := ActionMeta.reason none }] },
       .ok (1, ProviderStatus.disabled, none)) :=
  ⟨disable_empty_reason_amended.1 ⟨[sampleActive], []⟩ adminU 1 (some (some " "))
      none (by decide) (by decide),
   disable_empty_reason_amended.2 ⟨[sampleActive], []⟩ adminU 1 none
      (by decide) (by decide) (by decide) (by decide)⟩

def sampleNewUser : User := { id := 7, email := "u@x.com", role := .provider }

def sampleCreateBody : CreateBody :=
  { businessName := some "Acme Co", city := some "Chicago", state := some "IL" }

def sampleCreated : Provider :=
  { id := 99, slug := "acme-co", businessName := "Acme Co", email := "u@x.com",
    tagline := none, city := "Chicago", state := "IL", zip := none, logo := none,
    services := [], rating := ⟨0, 1⟩, verified := false, status := .active,
    disabledReason := none, userId := some 7, createdAt := 500, updatedAt := 500 }

/-- C8: a provider created through `POST /providers` materialises with
`status = active`, the column default installed by the admin-schema
migration — not `pending` as the documented lifecycle prescribes; the
handler passes no `status` at all to the insert. -/
theorem create_status_active_bug :
    (createProvider ⟨[], []⟩ (some sampleNewUser) sampleCreateBody 99 500).2 =
      .ok sampleCreated ∧
    sampleCreated.status = ProviderStatus.active ∧
    sampleCreated.status ≠ ProviderStatus.pending ∧
    providerStatusDefault = ProviderStatus.active := by decide

/-- C9 counterexample: a non-numeric `minRating` is not silently ignored —
it fails the querystring schema pattern and the request is rejected with a
validation error. -/
theorem minrating_malformed_cex :
    jsParseFloat "abc" = none ∧ minRatingPat "abc" = false ∧
    validateListQuery { minRating := some "abc" } = false ∧
    listEndpoint { minRating := some "abc" } sampleDb = .error .validation := by decide

/-- C9 amended: a `minRating` that fails the numeric pattern is rejected by
the querystring schema with a validation error, exactly like malformed
`sort`/`match`/`order` enums and non-digit `page`/`limit` values; a
`verified` value outside the recognised set is the parameter that falls
back silently — the listing behaves as if it were absent. -/
theorem minrating_malformed_amended :
    (∀ (q : ListQuery) (db : List Provider) (s : String), q.minRating = some s →
      minRatingPat s = false → listEndpoint q db = .error .validation) ∧
    (∀ (q : ListQuery) (db : List Provider) (s : String), q.sort = some s →
      (s == "newest" || s == "name" || s == "rating" || s == "verified") = false →
      listEndpoint q db = .error .validation) ∧
    (∀ (q : ListQuery) (db : List Provider) (s : String), q.«match» = some s →
      (s == "any" || s == "all") = false → listEndpoint q db = .error .validation) ∧
    (∀ (q : ListQuery) (db : List Provider) (s : String), q.order = some s →
      (s == "asc" || s == "desc") = false → listEndpoint q db = .error .validation) ∧
    (∀ (q : ListQuery) (db : List Provider) (s : String), q.page = some s →
      isDigitStr s = false → listEndpoint q db = .error .validation) ∧
    (∀ (q : ListQuery) (db : List Provider) (s : String), q.limit = some s →
      isDigitStr s = false → listEndpoint q db = .error .validation) ∧
    (∀ (q : ListQuery) (db : List Provider) (v : String), q.verified = some v →
      (jsToLower v == "1" || jsToLower v == "true" || jsToLower v == "0" ||
        jsToLower v == "false") = false →
      listProviders q db = listProviders { q with verified := none } db ∧
      validateListQuery { q with verified := none } = validateListQuery q) := by
  refine ⟨?_, ?_, ?_, ?_, ?_, ?_, ?_⟩
  · intro q db s hq hpat
    have hval : validateListQuery q = false := by
      simp [validateListQuery, hq, Option.all, hpat]
    simp [listEndpoint, hval]
  · intro q db s hq hpat
    have hval : validateListQuery q = false := by
      simp [validateListQuery, hq, Option.all, hpat]
    simp [listEndpoint, hval]
  · intro q db s hq hpat
    have hval : validateListQuery q = false := by
      simp [validateListQuery, hq, Option.all, hpat]
    simp [listEndpoint, hval]
  · intro q db s hq hpat
    have hval : validateListQuery q = false := by
      simp [validateListQuery, hq, Option.all, hpat]
    simp [listEndpoint, hval]
  · intro q db s hq hpat
    have hval : validateListQuery q = false := by
      simp [validateListQuery, hq, Option.all, hpat]
    simp [listEndpoint, hval]
  · intro q db s hq hpat
    have hval : validateListQuery q = false := by
      simp [validateListQuery, hq, Option.all, hpat]
    simp [listEndpoint, hval]
  · intro q db v hq hv4
    have hvf : verifiedFilter (some v) = [] := by
      unfold verifiedFilter
      by_cases hve : (v == "") = true
      · simp [hve]
      · obtain ⟨h123, h4⟩ := Bool.or_eq_false_iff.mp hv4
        obtain ⟨h12, h3⟩ := Bool.or_eq_false_iff.mp h123
        obtain ⟨h1, h2⟩ := Bool.or_eq_false_iff.mp h12
        simp [hve, h1, h2, h3, h4]
    obtain ⟨n, c, sv, mr, vf, m, so, od, pg, li⟩ := q
    have hq' : vf = some v := hq
    subst hq'
    constructor
    · have hwp : wherePred ⟨n, c, sv, mr, some v, m, so, od, pg, li⟩ =
          wherePred ⟨n, c, sv, mr, none, m, so, od, pg, li⟩ := by
        funext p
        simp [wherePred, andFilters, hvf, show verifiedFilter none = [] from rfl]
      have heob : effectiveOrderBy ⟨n, c, sv, mr, some v, m, so, od, pg, li⟩ =
          effectiveOrderBy ⟨n, c, sv, mr, none, m, so, od, pg, li⟩ := rfl
      simp [listProviders, sortedWhere, hwp, heob]
    · rfl

theorem minrating_malformed_amended_witness :
    listEndpoint { minRating := some "4x" } sampleDb = .error .validation ∧
    listEndpoint { sort := some "oldest" } sampleDb = .error .validation ∧
    listProviders { verified := some "banana" } sampleDb = listProviders {} sampleDb :=
  ⟨minrating_malformed_amended.1 { minRating := some "4x" } sampleDb "4x" rfl
      (by decide),
   minrating_malformed_amended.2.1 { sort := some "oldest" } sampleDb "oldest" rfl
      (by decide),
   (minrating_malformed_amended.2.2.2.2.2.2 { verified := some "banana" } sampleDb
      "banana" rfl (by decide)).1⟩

end Marketlink
